import Mathlib

/-!
# Verification of the coreason-episteme hypothesis-refinement core

Shallow embedding of the data model (`models.py`), the candidate selector
(`components/bridge_builder.py`, `BridgeBuilderImpl.generate_hypothesis`),
the critique aggregator (`components/adversarial_reviewer.py`,
`AdversarialReviewerImpl.review`) and the refinement orchestrator
(`engine.py`, `EpistemeEngineAsync.run`).

Conventions of the embedding:
* Python floats (scores in [0,1]) are modelled as rationals `ℚ`; the code
  only compares and copies them.
* A Python call that may raise is modelled as `Except String α`; the
  string is the exception message.
* Collaborator services (graph, druggability, ontology, literature,
  simulation, provenance sink, protocol designer) are opaque and appear
  as function-valued parameters, mirroring the `Protocol` interfaces of
  `interfaces.py`.
* In-place mutation of pydantic objects is modelled by explicit record
  updates; observable side effects (provenance-sink calls, collaborator
  calls) are returned as explicit event lists.
* `KnowledgeGap.id`, `HypothesisTrace.gap_id` and `HypothesisTrace.bridge_id`
  are used by `engine.py` (lines 119 and 150) and asserted by the test
  suite (`tests/test_engine.py`), although the `models.py` iteration
  kept in the tree omits them; the embedding includes them as the engine
  requires.
-/

/-- Severity levels of a critique (`models.py`, `CritiqueSeverity`). -/
inductive CritiqueSeverity where
  | LOW
  | MEDIUM
  | HIGH
  | FATAL
deriving DecidableEq

/-- A review finding (`models.py`, `Critique`). -/
structure Critique where
  source : String
  content : String
  severity : CritiqueSeverity
deriving DecidableEq

/-- Experimental-design record (`models.py`, `PICO`). -/
structure PICO where
  population : String
  intervention : String
  comparator : String
  outcome : String
deriving DecidableEq

/-- Confidence tier of a hypothesis (`models.py`, `ConfidenceLevel`). -/
inductive ConfidenceLevel where
  | SPECULATIVE
  | PLAUSIBLE
  | PROBABLE
deriving DecidableEq

/-- Gap kind (`models.py`, `KnowledgeGapType`). -/
inductive KnowledgeGapType where
  | CLUSTER_DISCONNECT
  | LITERATURE_INCONSISTENCY
deriving DecidableEq

/-- A candidate genetic target (`models.py`, `GeneticTarget`). -/
structure GeneticTarget where
  symbol : String
  ensembl_id : String
  druggability_score : ℚ
  novelty_score : ℚ
deriving DecidableEq

/-- A knowledge gap (`models.py`, `KnowledgeGap`); `source_nodes` is
`Optional[List[str]]` in the source.  The `id` field is auto-generated in
the iteration of `models.py` the engine and tests were written against
(`engine.py` line 119, `tests/test_models.py`). -/
structure KnowledgeGap where
  id : String
  description : String
  type : KnowledgeGapType
  source_nodes : Option (List String)
deriving DecidableEq

/-- A scientific hypothesis (`models.py`, `Hypothesis`). -/
structure Hypothesis where
  id : String
  title : String
  knowledge_gap : String
  proposed_mechanism : String
  target_candidate : GeneticTarget
  causal_validation_score : ℚ
  key_counterfactual : String
  killer_experiment_pico : PICO
  evidence_chain : List String
  confidence : ConfidenceLevel
  critiques : List Critique
deriving DecidableEq

/-- Result of one selection attempt (`models.py`, `BridgeResult`). -/
structure BridgeResult where
  hypothesis : Option Hypothesis
  bridges_found_count : ℕ
  considered_candidates : List String
deriving DecidableEq

/-- The per-gap audit trail (`models.py`, `HypothesisTrace`); `gap_id` and
`bridge_id` as assigned by `engine.py` lines 119 and 150. -/
structure HypothesisTrace where
  hypothesis_id : Option String
  gap : KnowledgeGap
  gap_id : String
  bridge_id : Option String
  bridges_found_count : ℕ
  considered_candidates : List String
  excluded_targets_history : List String
  causal_validation_score : Option ℚ
  key_counterfactual : Option String
  critiques : List Critique
  refinement_retries : ℕ
  result : Option Hypothesis
  status : String
deriving DecidableEq

/-- Python truthiness of an `Optional[str]`: `None` and `""` are falsy.
Used by `engine.py` for `if trace.hypothesis_id:` and
`trace.hypothesis_id or f"..."`. -/
def pyTruthyStr : Option String → Bool
  | none => false
  | some s => !(s == "")

/-- `x or y` on an `Optional[str]` as Python evaluates it. -/
def pyOrStr (x : Option String) (y : String) : String :=
  match x with
  | none => y
  | some s => if s == "" then y else s

instance {ε α : Type} [DecidableEq ε] [DecidableEq α] : DecidableEq (Except ε α) :=
  fun a b =>
  match a, b with
  | .error e, .error f =>
    if h : e = f then .isTrue (by rw [h]) else .isFalse (fun hh => h (by cases hh; rfl))
  | .ok x, .ok y =>
    if h : x = y then .isTrue (by rw [h]) else .isFalse (fun hh => h (by cases hh; rfl))
  | .error _, .ok _ => .isFalse (fun hh => by cases hh)
  | .ok _, .error _ => .isFalse (fun hh => by cases hh)

namespace BridgeBuilderImpl

/-- The four collaborator operations consumed by
`BridgeBuilderImpl.generate_hypothesis` (`interfaces.py`): graph traversal,
druggability scoring, ontology validation and citation verification.
They are modelled as total functions: the selection-level claims concern
runs in which no collaborator raises (a raise would propagate to the
gap boundary, which is the engine's concern). -/
structure BridgeClients where
  find_latent_bridges : String → String → List GeneticTarget
  check_druggability : String → ℚ
  validate_target : String → Option GeneticTarget
  verify_citation : String → Bool

/-- One collaborator call made during selection, recorded for the
frame conditions ("no collaborator side effects"). -/
inductive ClientCall where
  | graph (source target : String)
  | prism (target_id : String)
  | codex (symbol : String)
  | search (claim : String)
deriving DecidableEq

/-- The interaction claim string built at `bridge_builder.py` lines 129-132. -/
def interactionClaim (source_id : String) (vt : GeneticTarget) (target_id : String) : String :=
  source_id ++ " interacts with " ++ vt.symbol ++ " and " ++ vt.symbol ++ " affects " ++ target_id

/-- Outcome of the per-candidate body of the selection loop
(`bridge_builder.py` lines 115-143).  `passed` carries the
codex-validated object *after* line 137 overwrote its druggability score
with the fresh measurement; `rejectedCitation` carries it untouched. -/
inductive CandPhase where
  | skippedExcluded
  | rejectedDruggability (score : ℚ)
  | rejectedValidation (score : ℚ)
  | rejectedCitation (vt : GeneticTarget) (score : ℚ)
  | passed (vt : GeneticTarget) (score : ℚ)
deriving DecidableEq

/-- The loop body of `generate_hypothesis` for one candidate `b`
(`bridge_builder.py` lines 115-143), excluding the best-candidate
comparison, which is the fold below. -/
def processCandidate (c : BridgeClients) (threshold : ℚ) (source_id target_id : String)
    (excluded : List String) (b : GeneticTarget) : CandPhase :=
  if b.symbol ∈ excluded then
    .skippedExcluded
  else
    let druggability := c.check_druggability b.ensembl_id
    if druggability > threshold then
      match c.validate_target b.symbol with
      | none => .rejectedValidation druggability
      | some vt =>
        if c.verify_citation (interactionClaim source_id vt target_id) then
          .passed { vt with druggability_score := druggability } druggability
        else
          .rejectedCitation vt druggability
    else
      .rejectedDruggability druggability

/-- The collaborator calls issued by the loop body for one candidate, in
program order. -/
def candidateCalls (c : BridgeClients) (threshold : ℚ) (source_id target_id : String)
    (excluded : List String) (b : GeneticTarget) : List ClientCall :=
  if b.symbol ∈ excluded then
    []
  else
    let druggability := c.check_druggability b.ensembl_id
    if druggability > threshold then
      match c.validate_target b.symbol with
      | none => [.prism b.ensembl_id, .codex b.symbol]
      | some vt =>
        [.prism b.ensembl_id, .codex b.symbol,
         .search (interactionClaim source_id vt target_id)]
    else
      [.prism b.ensembl_id]

/-- One step of the best-candidate fold (`bridge_builder.py` lines 139-141):
strictly greater wins, so the earlier candidate is kept on equal scores. -/
def bestStep (c : BridgeClients) (threshold : ℚ) (source_id target_id : String)
    (excluded : List String) (acc : Option GeneticTarget × ℚ) (b : GeneticTarget) :
    Option GeneticTarget × ℚ :=
  match processCandidate c threshold source_id target_id excluded b with
  | .passed vt score => if score > acc.2 then (some vt, score) else acc
  | _ => acc

/-- `BridgeBuilderImpl.generate_hypothesis` (`bridge_builder.py` lines
63-176).  `newId` stands for the `uuid.uuid4()` drawn at line 155.  The
second component records every collaborator call made, in order. -/
def generate_hypothesis (c : BridgeClients) (threshold : ℚ) (gap : KnowledgeGap)
    (excluded : List String) (newId : String) : BridgeResult × List ClientCall :=
  match gap.source_nodes with
  | none => (⟨none, 0, []⟩, [])
  | some nodes =>
    match nodes with
    | [] => (⟨none, 0, []⟩, [])
    | [_] => (⟨none, 0, []⟩, [])
    | source_id :: target_id :: _ =>
        let potential_bridges := c.find_latent_bridges source_id target_id
        let calls := ClientCall.graph source_id target_id ::
          potential_bridges.flatMap (candidateCalls c threshold source_id target_id excluded)
        if potential_bridges.isEmpty then
          (⟨none, 0, []⟩, [ClientCall.graph source_id target_id])
        else
          let best := potential_bridges.foldl
            (bestStep c threshold source_id target_id excluded) (none, -1)
          match best.1 with
          | none =>
            (⟨none, potential_bridges.length, potential_bridges.map (·.symbol)⟩, calls)
          | some best_candidate =>
            let mechanism := "Regulation of " ++ target_id ++ " via " ++
              best_candidate.symbol ++ " (bridging from " ++ source_id ++ ")."
            let hypothesis : Hypothesis :=
              { id := newId
                title := "Proposed Link: " ++ source_id ++ " -> " ++
                  best_candidate.symbol ++ " -> " ++ target_id
                knowledge_gap := gap.description
                proposed_mechanism := mechanism
                target_candidate := best_candidate
                causal_validation_score := 0
                key_counterfactual := ""
                killer_experiment_pico :=
                  { population := "TBD", intervention := "TBD",
                    comparator := "TBD", outcome := "TBD" }
                evidence_chain := nodes ++ [best_candidate.ensembl_id]
                confidence := .SPECULATIVE
                critiques := [] }
            (⟨some hypothesis, potential_bridges.length, potential_bridges.map (·.symbol)⟩,
             calls)

/-- The candidates that pass all four checks (exclusion, druggability
threshold, ontology validation, citation verification), paired with their
freshly measured druggability scores, in return order. -/
def passingList (c : BridgeClients) (threshold : ℚ) (source_id target_id : String)
    (excluded : List String) (bridges : List GeneticTarget) : List (GeneticTarget × ℚ) :=
  bridges.filterMap fun b =>
    match processCandidate c threshold source_id target_id excluded b with
    | .passed vt score => some (vt, score)
    | _ => none

/-- One comparison step of the spec-side selection rule: keep the
incumbent unless the newcomer's score is strictly higher. -/
def specStep (acc : Option (GeneticTarget × ℚ)) (p : GeneticTarget × ℚ) :
    Option (GeneticTarget × ℚ) :=
  match acc with
  | none => some p
  | some q => if p.2 > q.2 then some p else some q

/-- The selection rule as §4.1 step 4 of the spec words it: among the
passing candidates take the strictly highest score, keeping the
first-seen candidate on ties.  Used to compare the spec's words against
the fold the source performs. -/
def specFirstMax (l : List (GeneticTarget × ℚ)) : Option (GeneticTarget × ℚ) :=
  l.foldl specStep none

/-- The code-side accumulator (`best_candidate`, `best_druggability`)
corresponding to a spec-side incumbent: `None` corresponds to the
initial `(None, -1.0)` of `bridge_builder.py` lines 112-113. -/
def accOf : Option (GeneticTarget × ℚ) → Option GeneticTarget × ℚ
  | none => (none, -1)
  | some q => (some q.1, q.2)

end BridgeBuilderImpl

namespace AdversarialReviewerImpl

/-- The collaborator operations consumed by `AdversarialReviewerImpl.review`
(`adversarial_reviewer.py`).  Each call either raises (`Except.error`) or
returns the Python value, which may be `None` instead of a list — hence
`Option (List String)`. -/
structure ReviewClients where
  run_toxicology_screen : GeneticTarget → Except String (Option (List String))
  check_clinical_redundancy : String → GeneticTarget → Except String (Option (List String))
  check_patent_infringement : GeneticTarget → String → Except String (Option (List String))
  find_disconfirming_evidence : String → String → String → Except String (Option (List String))

/-- Python truthiness of an `Optional[List[str]]`: `None` and `[]` are
falsy.  `adversarial_reviewer.py` guards every collaborator result with
`if tox_risks:` etc., so a `None` result is skipped exactly like an empty
list. -/
def pyTruthyList : Option (List String) → Bool
  | none => false
  | some l => !l.isEmpty

/-- The items Python would iterate over: `None` contributes nothing
because the truthiness guard short-circuits before iteration. -/
def pyItems (v : Option (List String)) : List String :=
  if pyTruthyList v then v.getD [] else []

/-- `_format_critiques`-style formatting used inline at
`adversarial_reviewer.py` lines 43-45, 55-57, 67-69. -/
def formatCritiques (items : List String) (source : String) (severity : CritiqueSeverity) :
    List Critique :=
  items.map fun item => { source := source, content := item, severity := severity }

/-- `AdversarialReviewerImpl.review` (`adversarial_reviewer.py` lines
30-109): runs the Toxicologist, Clinician, IP Strategist and Scientific
Skeptic in that order, appends their findings to the hypothesis's
critique list, and propagates any exception a collaborator raises
(awaits are sequential; an exception aborts the remaining calls). -/
def review (c : ReviewClients) (hypothesis : Hypothesis) : Except String Hypothesis :=
  match c.run_toxicology_screen hypothesis.target_candidate with
  | .error m => .error m
  | .ok tox_risks =>
    match c.check_clinical_redundancy hypothesis.proposed_mechanism
        hypothesis.target_candidate with
    | .error m => .error m
    | .ok redundancies =>
      match c.check_patent_infringement hypothesis.target_candidate
          hypothesis.proposed_mechanism with
      | .error m => .error m
      | .ok patents =>
        match c.find_disconfirming_evidence hypothesis.target_candidate.symbol
            hypothesis.knowledge_gap "affect" with
        | .error m => .error m
        | .ok disconfirming =>
          let critiques :=
            formatCritiques (pyItems tox_risks) "Toxicologist" .FATAL
            ++ formatCritiques (pyItems redundancies) "Clinician" .MEDIUM
            ++ formatCritiques (pyItems patents) "IP Strategist" .HIGH
            ++ formatCritiques
              ((pyItems disconfirming).map fun e => "Disconfirming evidence found: " ++ e)
              "Scientific Skeptic" .FATAL
          .ok { hypothesis with critiques := hypothesis.critiques ++ critiques }

end AdversarialReviewerImpl

namespace EpistemeEngineAsync

/-- The collaborators of `EpistemeEngineAsync.run` (`engine.py`), at the
granularity the engine consumes them: any call may raise.  `bridge` takes
the gap and the accumulated exclusion list; `logTrace` is the provenance
sink (`veritas_client.log_trace`). -/
structure EngineEnv where
  bridge : KnowledgeGap → List String → Except String BridgeResult
  validate : Hypothesis → Except String Hypothesis
  review : Hypothesis → Except String Hypothesis
  design : Hypothesis → Except String Hypothesis
  logTrace : String → HypothesisTrace → Except String Unit

/-- How one gap's `while` loop ended: acceptance, a `break` or bound
exhaustion without acceptance, or an exception escaping the loop. -/
inductive LoopOutcome where
  | accepted (h : Hypothesis)
  | stopped
  | raised (msg : String)
deriving DecidableEq

/-- Observable result of running the per-gap `while` loop: the trace
object as the loop left it, the provenance-sink calls attempted inside
the loop, the number of selector calls, and the exclusion list passed to
each selector call in order. -/
structure LoopResult where
  outcome : LoopOutcome
  trace : HypothesisTrace
  emits : List (String × HypothesisTrace)
  selectorCalls : ℕ
  selectorArgs : List (List String)
deriving DecidableEq

/-- The trace created at `engine.py` line 119 before the loop starts. -/
def initTrace (gap : KnowledgeGap) : HypothesisTrace :=
  { hypothesis_id := none
    gap := gap
    gap_id := gap.id
    bridge_id := none
    bridges_found_count := 0
    considered_candidates := []
    excluded_targets_history := []
    causal_validation_score := none
    key_counterfactual := none
    critiques := []
    refinement_retries := 0
    result := none
    status := "PENDING" }

/-- Result of a single iteration of the `while` loop: either the
iteration ends the loop (`done` — acceptance, a `break`, or an
exception), or a FATAL critique triggers `continue` (`retry`), carrying
the symbol appended to the exclusion list and the trace as mutated so
far. -/
inductive StepResult where
  | done (outcome : LoopOutcome) (trace : HypothesisTrace)
      (emits : List (String × HypothesisTrace))
  | retry (sym : String) (trace : HypothesisTrace)
deriving DecidableEq

/-- The body of the `while attempts < self.max_retries` loop of
`EpistemeEngineAsync.run` (`engine.py` lines 123-200), entered with
`attempts` attempts already made (the body first increments the counter,
so `refinement_retries` is set to `attempts`). -/
def loopStep (env : EngineEnv) (gap : KnowledgeGap) (attempts : ℕ)
    (excluded : List String) (trace : HypothesisTrace) : StepResult :=
  let attempts1 := attempts + 1
  let trace1 := { trace with
    excluded_targets_history := excluded
    refinement_retries := attempts1 - 1 }
  match env.bridge gap excluded with
  | .error m => .done (.raised m) trace1 []
  | .ok bridge_result =>
    let trace2 := { trace1 with
      bridges_found_count := bridge_result.bridges_found_count
      considered_candidates := bridge_result.considered_candidates }
    match bridge_result.hypothesis with
    | none => .done .stopped { trace2 with status := "DISCARDED (No Bridge)" } []
    | some h0 =>
      let trace3 := { trace2 with
        hypothesis_id := some h0.id
        bridge_id := some h0.target_candidate.ensembl_id }
      match env.validate h0 with
      | .error m => .done (.raised m) trace3 []
      | .ok h1 =>
        let trace4 := { trace3 with
          causal_validation_score := some h1.causal_validation_score
          key_counterfactual := some h1.key_counterfactual }
        if h1.causal_validation_score < mkRat 1 2 then
          .done .stopped { trace4 with status := "DISCARDED (Low Causal Score)" } []
        else
          match env.review h1 with
          | .error m => .done (.raised m) trace4 []
          | .ok h2 =>
            let trace5 := { trace4 with critiques := h2.critiques }
            if (h2.critiques.filter fun c => c.severity == .FATAL).isEmpty then
              match env.design h2 with
              | .error m => .done (.raised m) trace5 []
              | .ok h3 =>
                let trace6 := { trace5 with result := some h3, status := "ACCEPTED" }
                if pyTruthyStr trace6.hypothesis_id then
                  match env.logTrace h0.id trace6 with
                  | .error m => .done (.raised m) trace6 [(h0.id, trace6)]
                  | .ok _ => .done (.accepted h3) trace6 [(h0.id, trace6)]
                else
                  .done (.accepted h3) trace6 []
            else
              .retry h2.target_candidate.symbol trace5

/-- The `while attempts < self.max_retries` loop of `EpistemeEngineAsync.run`
(`engine.py` lines 122-200).  `fuel` is the number of remaining
iterations (`max_retries - attempts`), `attempts` the attempts already
made, `excluded` the accumulated exclusion list and `trace` the trace
object as mutated so far. -/
def refinementLoop (env : EngineEnv) (gap : KnowledgeGap) :
    ℕ → ℕ → List String → HypothesisTrace → LoopResult
  | 0, _, _, trace => ⟨.stopped, trace, [], 0, []⟩
  | fuel + 1, attempts, excluded, trace =>
    match loopStep env gap attempts excluded trace with
    | .done outcome trace' emits => ⟨outcome, trace', emits, 1, [excluded]⟩
    | .retry sym trace' =>
      let rest := refinementLoop env gap fuel (attempts + 1) (excluded ++ [sym]) trace'
      ⟨rest.outcome, rest.trace, rest.emits,
       rest.selectorCalls + 1, excluded :: rest.selectorArgs⟩

/-- Observable result of processing one gap: the final trace, the
accepted hypothesis (appended to `results`) if any, every provenance-sink
call attempted for the gap, selector-call data, and — when the
`except` handler's own `log_trace` call raised — the message of the
exception that escapes the gap boundary. -/
structure GapResult where
  trace : HypothesisTrace
  accepted : Option Hypothesis
  emits : List (String × HypothesisTrace)
  selectorCalls : ℕ
  selectorArgs : List (List String)
  aborted : Option String
deriving DecidableEq

/-- The `except Exception` handler at `engine.py` lines 213-221: set the
status to `ERROR: <msg>` and attempt one more sink call; if that call
raises too, the exception propagates out of the gap (and out of `run`). -/
def gapErrorHandler (env : EngineEnv) (gap : KnowledgeGap) (m : String)
    (t : HypothesisTrace) (emits : List (String × HypothesisTrace))
    (selectorCalls : ℕ) (selectorArgs : List (List String)) : GapResult :=
  let tErr := { t with status := "ERROR: " ++ m }
  let logId := pyOrStr t.hypothesis_id ("error-gap-" ++ gap.id)
  match env.logTrace logId tErr with
  | .ok _ => ⟨tErr, none, emits ++ [(logId, tErr)], selectorCalls, selectorArgs, none⟩
  | .error m2 => ⟨tErr, none, emits ++ [(logId, tErr)], selectorCalls, selectorArgs, some m2⟩

/-- Processing of one gap by `EpistemeEngineAsync.run` (`engine.py` lines
114-221): run the refinement loop inside `try`, emit the trace of a
non-accepted gap at lines 203-211, and route exceptions through the
gap-boundary handler. -/
def processGap (env : EngineEnv) (maxRetries : ℕ) (gap : KnowledgeGap) : GapResult :=
  let r := refinementLoop env gap maxRetries 0 [] (initTrace gap)
  match r.outcome with
  | .accepted h => ⟨r.trace, some h, r.emits, r.selectorCalls, r.selectorArgs, none⟩
  | .stopped =>
    if r.trace.status == "ACCEPTED" then
      ⟨r.trace, none, r.emits, r.selectorCalls, r.selectorArgs, none⟩
    else
      let logId := pyOrStr r.trace.hypothesis_id ("failed-gap-" ++ gap.id)
      match env.logTrace logId r.trace with
      | .ok _ =>
        ⟨r.trace, none, r.emits ++ [(logId, r.trace)], r.selectorCalls, r.selectorArgs, none⟩
      | .error m =>
        gapErrorHandler env gap m r.trace (r.emits ++ [(logId, r.trace)])
          r.selectorCalls r.selectorArgs
  | .raised m => gapErrorHandler env gap m r.trace r.emits r.selectorCalls r.selectorArgs

/-- What a completed run returns and what the sink saw, in order. -/
structure RunOk where
  results : List Hypothesis
  emits : List (String × HypothesisTrace)
deriving DecidableEq

/-- The `for gap in gaps` loop of `EpistemeEngineAsync.run` (`engine.py`
lines 114-224): gaps strictly in order; an exception escaping a gap
boundary aborts the whole run (Python propagates it out of `run`),
losing the hypotheses already collected. -/
def runGaps (env : EngineEnv) (maxRetries : ℕ) : List KnowledgeGap → Except String RunOk
  | [] => .ok ⟨[], []⟩
  | gap :: rest =>
    let r := processGap env maxRetries gap
    match r.aborted with
    | some m => .error m
    | none =>
      match runGaps env maxRetries rest with
      | .error m => .error m
      | .ok rr => .ok ⟨r.accepted.toList ++ rr.results, r.emits ++ rr.emits⟩

/-- `EpistemeEngineAsync.run` (`engine.py` lines 77-224): scan for gaps
(an exception here propagates: the scan is outside the per-gap `try`),
return early when none are found, else process every gap. -/
def run (env : EngineEnv) (maxRetries : ℕ)
    (scan : Except String (List KnowledgeGap)) : Except String RunOk :=
  match scan with
  | .error m => .error m
  | .ok gaps =>
    if gaps.isEmpty then .ok ⟨[], []⟩
    else runGaps env maxRetries gaps

end EpistemeEngineAsync

/-! ## Concrete fixtures

Closed environments and inputs used to evaluate the embedding on the
scenarios the spec describes. -/

section Fixtures

open BridgeBuilderImpl AdversarialReviewerImpl EpistemeEngineAsync

/-- A druggable, novel genetic target. -/
def sampleTarget : GeneticTarget :=
  { symbol := "GENE1", ensembl_id := "ENSG000001",
    druggability_score := mkRat 9 10, novelty_score := mkRat 1 2 }

/-- A minimal hypothesis carrying the given id and target, as a bridge
builder would freshly construct it. -/
def mkSampleHyp (hid : String) (t : GeneticTarget) : Hypothesis :=
  { id := hid, title := "T", knowledge_gap := "KG", proposed_mechanism := "M",
    target_candidate := t, causal_validation_score := 0, key_counterfactual := "",
    killer_experiment_pico :=
      { population := "TBD", intervention := "TBD", comparator := "TBD", outcome := "TBD" },
    evidence_chain := [], confidence := .SPECULATIVE, critiques := [] }

/-- A gap with two source nodes. -/
def sampleGap : KnowledgeGap :=
  { id := "gap-1", description := "Gap One", type := .CLUSTER_DISCONNECT,
    source_nodes := some ["A", "B"] }

/-- A second gap with two source nodes. -/
def gapTwo : KnowledgeGap :=
  { id := "gap-2", description := "Gap Two", type := .CLUSTER_DISCONNECT,
    source_nodes := some ["C", "D"] }

/-- A gap whose `source_nodes` is `None`. -/
def gapNoNodes : KnowledgeGap :=
  { id := "gap-0", description := "Gap Zero", type := .CLUSTER_DISCONNECT,
    source_nodes := none }

/-- Collaborators for which every selection attempt produces a
hypothesis whose review carries a FATAL critique: the refinement loop
retries until the bound is exhausted. -/
def envExhaust : EngineEnv :=
  { bridge := fun _ _ => .ok ⟨some (mkSampleHyp "hyp-1" sampleTarget), 1, ["GENE1"]⟩
    validate := fun h => .ok { h with causal_validation_score := mkRat 9 10 }
    review := fun h =>
      .ok { h with critiques :=
        h.critiques ++ [{ source := "Toxicologist", content := "toxic", severity := .FATAL }] }
    design := fun h => .ok h
    logTrace := fun _ _ => .ok () }

/-- Collaborators where the validator raises for the second gap's
hypothesis and the provenance sink raises whenever it is handed the
resulting error trace: the error handler's own sink call then raises. -/
def envSinkDown : EngineEnv :=
  { bridge := fun g _ => .ok ⟨some (mkSampleHyp ("hyp-" ++ g.id) sampleTarget), 1, ["GENE1"]⟩
    validate := fun h =>
      if h.id == "hyp-gap-2" then .error "boom"
      else .ok { h with causal_validation_score := mkRat 9 10 }
    review := fun h => .ok h
    design := fun h => .ok h
    logTrace := fun _ t => if t.status == "ERROR: boom" then .error "sink down" else .ok () }

/-- Collaborators whose graph service always raises; the sink works. -/
def envBridgeFail : EngineEnv :=
  { bridge := fun _ _ => .error "graph down"
    validate := fun h => .ok h
    review := fun h => .ok h
    design := fun h => .ok h
    logTrace := fun _ _ => .ok () }

/-- Collaborators whose selector finds no bridge; the sink works. -/
def envNoBridge : EngineEnv :=
  { bridge := fun _ _ => .ok ⟨none, 0, []⟩
    validate := fun h => .ok h
    review := fun h => .ok h
    design := fun h => .ok h
    logTrace := fun _ _ => .ok () }

/-- Collaborators whose causal simulation returns 0.2 for an
otherwise-valid hypothesis. -/
def envLowScore : EngineEnv :=
  { bridge := fun _ _ => .ok ⟨some (mkSampleHyp "hyp-low" sampleTarget), 1, ["GENE1"]⟩
    validate := fun h => .ok { h with causal_validation_score := mkRat 1 5 }
    review := fun h => .ok h
    design := fun h => .ok h
    logTrace := fun _ _ => .ok () }

/-- Selection collaborators offering two otherwise-valid candidates with
measured druggability 0.6 (first) and 0.9 (second). -/
def tieClients : BridgeClients :=
  { find_latent_bridges := fun s t =>
      if s == "A" && t == "B" then
        [{ symbol := "X", ensembl_id := "EX", druggability_score := 0, novelty_score := 0 },
         { symbol := "Y", ensembl_id := "EY", druggability_score := 0, novelty_score := 0 }]
      else []
    check_druggability := fun tid =>
      if tid == "EX" then mkRat 6 10 else if tid == "EY" then mkRat 9 10 else 0
    validate_target := fun sym =>
      some { symbol := sym, ensembl_id := "ENS_" ++ sym,
             druggability_score := mkRat 1 2, novelty_score := mkRat 1 2 }
    verify_citation := fun _ => true }

/-- Same selection collaborators, but citation verification fails. -/
def noVerifyClients : BridgeClients :=
  { tieClients with verify_citation := fun _ => false }

/-- Review collaborators that all return `None` instead of a list. -/
def noneClients : ReviewClients :=
  { run_toxicology_screen := fun _ => .ok none
    check_clinical_redundancy := fun _ _ => .ok none
    check_patent_infringement := fun _ _ => .ok none
    find_disconfirming_evidence := fun _ _ _ => .ok none }

/-- Review collaborators whose toxicology screen raises. -/
def raisingClients : ReviewClients :=
  { noneClients with run_toxicology_screen := fun _ => .error "Service Down" }

/-- A concrete hypothesis handed to the reviewer. -/
def sampleHyp : Hypothesis := mkSampleHyp "hypo-1" sampleTarget

end Fixtures

/-! ## Selector lemmas -/

open BridgeBuilderImpl in
/-- Anatomy of a candidate that passes all four selection checks: it was
not excluded, its fresh druggability measurement strictly exceeds the
threshold, and the carried object is the codex-validated target with its
druggability score overwritten by the measurement. -/
theorem processCandidate_passed_spec {c : BridgeClients} {th : ℚ} {s t : String}
    {ex : List String} {b vt : GeneticTarget} {sc : ℚ} :
    processCandidate c th s t ex b = .passed vt sc →
    b.symbol ∉ ex ∧ th < sc ∧ sc = c.check_druggability b.ensembl_id ∧
    ∃ vt0, c.validate_target b.symbol = some vt0 ∧
      vt = { vt0 with druggability_score := sc } := by
  intro h
  simp only [processCandidate] at h
  by_cases hmem : b.symbol ∈ ex
  · rw [if_pos hmem] at h; cases h
  · rw [if_neg hmem] at h
    by_cases hth : c.check_druggability b.ensembl_id > th
    · rw [if_pos hth] at h
      cases hvt : c.validate_target b.symbol with
      | none => simp only [hvt] at h; cases h
      | some vt0 =>
        simp only [hvt] at h
        by_cases hver : c.verify_citation (interactionClaim s vt0 t)
        · rw [if_pos hver] at h
          cases h
          exact ⟨hmem, hth, rfl, vt0, rfl, rfl⟩
        · rw [if_neg hver] at h; cases h
    · rw [if_neg hth] at h; cases h

open BridgeBuilderImpl in
/-- Every pair in the passing list carries a score strictly above the
threshold, and the carried target's druggability field equals that
score. -/
theorem passingList_score {c : BridgeClients} {th : ℚ} {s t : String}
    {ex : List String} {bridges : List GeneticTarget} :
    ∀ p ∈ passingList c th s t ex bridges, th < p.2 ∧ p.1.druggability_score = p.2 := by
  intro p hp
  rw [passingList, List.mem_filterMap] at hp
  obtain ⟨b, _, hb⟩ := hp
  cases hpc : processCandidate c th s t ex b with
  | passed vt sc =>
    rw [hpc] at hb
    cases hb
    obtain ⟨_, hth, _, vt0, _, hvt⟩ := processCandidate_passed_spec hpc
    exact ⟨hth, by rw [hvt]⟩
  | skippedExcluded => rw [hpc] at hb; cases hb
  | rejectedDruggability sc => rw [hpc] at hb; cases hb
  | rejectedValidation sc => rw [hpc] at hb; cases hb
  | rejectedCitation vt sc => rw [hpc] at hb; cases hb

/-! ## Claim theorems: selector fast-path and frame conditions -/

open BridgeBuilderImpl in
/-- C8: for every gap with fewer than two source nodes (including a
missing or empty source-node list), a single selection call returns a
`BridgeResult` with a null hypothesis, `bridges_found_count = 0` and an
empty considered-candidates list, and issues no collaborator call
(graph, druggability, ontology or literature): the recorded call list is
empty. -/
theorem few_source_nodes_null_result_no_calls
    (c : BridgeClients) (th : ℚ) (gap : KnowledgeGap) (ex : List String) (nid : String)
    (hlen : (gap.source_nodes.getD []).length < 2) :
    generate_hypothesis c th gap ex nid = (⟨none, 0, []⟩, []) := by
  unfold generate_hypothesis
  cases hsrc : gap.source_nodes with
  | none => simp
  | some nodes =>
    rw [hsrc] at hlen
    simp only [Option.getD] at hlen
    cases nodes with
    | nil => simp
    | cons a nodes1 =>
      cases nodes1 with
      | nil => simp
      | cons b rest2 => simp only [List.length_cons] at hlen; omega

/-- C8 witness: a gap whose `source_nodes` is `None` yields the empty
result and an empty collaborator-call list. -/
theorem few_source_nodes_null_result_no_calls_witness :
    ((gapNoNodes.source_nodes.getD []).length < 2) ∧
    BridgeBuilderImpl.generate_hypothesis tieClients (mkRat 1 2) gapNoNodes [] "hid" =
      (⟨none, 0, []⟩, []) :=
  ⟨by decide,
   few_source_nodes_null_result_no_calls tieClients (mkRat 1 2) gapNoNodes [] "hid" (by decide)⟩

open BridgeBuilderImpl in
/-- C10: during one selection call, the per-candidate outcome shows the
druggability overwrite happens exactly for candidates that pass all four
checks — independently of whether the candidate is finally selected: a
passing candidate's carried object is the codex-validated target with
`druggability_score` replaced by the fresh measurement, while a
candidate rejected at the citation check carries the codex object
untouched, and candidates rejected earlier carry no object at all.
(The embedding is purely functional: the gap itself and the graph's
candidate objects appear unchanged in every outcome.) -/
theorem candidate_druggability_overwrite_frame
    (c : BridgeClients) (th : ℚ) (s t : String) (ex : List String) (b vt : GeneticTarget) :
    (b.symbol ∈ ex → processCandidate c th s t ex b = .skippedExcluded) ∧
    (b.symbol ∉ ex → ¬ th < c.check_druggability b.ensembl_id →
      processCandidate c th s t ex b = .rejectedDruggability (c.check_druggability b.ensembl_id)) ∧
    (b.symbol ∉ ex → th < c.check_druggability b.ensembl_id →
      c.validate_target b.symbol = none →
      processCandidate c th s t ex b = .rejectedValidation (c.check_druggability b.ensembl_id)) ∧
    (b.symbol ∉ ex → th < c.check_druggability b.ensembl_id →
      c.validate_target b.symbol = some vt →
      processCandidate c th s t ex b =
        (if c.verify_citation (interactionClaim s vt t) then
          .passed { vt with druggability_score := c.check_druggability b.ensembl_id }
            (c.check_druggability b.ensembl_id)
        else .rejectedCitation vt (c.check_druggability b.ensembl_id))) := by
  refine ⟨fun hmem => ?_, fun hmem hth => ?_, fun hmem hth hvt => ?_, fun hmem hth hvt => ?_⟩
  · simp only [processCandidate, if_pos hmem]
  · simp only [processCandidate, if_neg hmem, gt_iff_lt, if_neg hth]
  · simp only [processCandidate, if_neg hmem, gt_iff_lt, if_pos hth, hvt]
  · simp only [processCandidate, if_neg hmem, gt_iff_lt, if_pos hth, hvt]

/-- C10 witness: with the concrete two-candidate clients, candidate `X`
passes and its carried object has the overwritten score 0.6; with
citation verification failing, the codex object is carried untouched. -/
theorem candidate_druggability_overwrite_frame_witness :
    (¬ ("X" : String) ∈ ([] : List String)) ∧
    BridgeBuilderImpl.processCandidate tieClients (mkRat 1 2) "A" "B" []
        { symbol := "X", ensembl_id := "EX", druggability_score := 0, novelty_score := 0 } =
      .passed { symbol := "X", ensembl_id := "ENS_X",
                druggability_score := mkRat 6 10, novelty_score := mkRat 1 2 } (mkRat 6 10) ∧
    BridgeBuilderImpl.processCandidate noVerifyClients (mkRat 1 2) "A" "B" []
        { symbol := "X", ensembl_id := "EX", druggability_score := 0, novelty_score := 0 } =
      .rejectedCitation { symbol := "X", ensembl_id := "ENS_X",
                          druggability_score := mkRat 1 2, novelty_score := mkRat 1 2 }
        (mkRat 6 10) := by
  refine ⟨by decide, ?_, ?_⟩
  · have h := (candidate_druggability_overwrite_frame tieClients (mkRat 1 2) "A" "B" []
      { symbol := "X", ensembl_id := "EX", druggability_score := 0, novelty_score := 0 }
      { symbol := "X", ensembl_id := "ENS_X",
        druggability_score := mkRat 1 2, novelty_score := mkRat 1 2 }).2.2.2
      (by decide) (by decide) (by decide)
    rw [h]; decide
  · have h := (candidate_druggability_overwrite_frame noVerifyClients (mkRat 1 2) "A" "B" []
      { symbol := "X", ensembl_id := "EX", druggability_score := 0, novelty_score := 0 }
      { symbol := "X", ensembl_id := "ENS_X",
        druggability_score := mkRat 1 2, novelty_score := mkRat 1 2 }).2.2.2
      (by decide) (by decide) (by decide)
    rw [h]; decide

/-! ## Claim theorems: critique aggregation -/

open AdversarialReviewerImpl in
/-- C9 counterexample: every review collaborator returns `None` instead
of a list; `AdversarialReviewerImpl.review` neither raises nor records a
finding — it returns the hypothesis unchanged with an empty critique
set, silently coercing the non-list value.  (The repository's own test
`test_review_service_returns_none` asserts exactly this behaviour.) -/
theorem review_none_silently_coerced :
    AdversarialReviewerImpl.review noneClients sampleHyp = .ok sampleHyp ∧
    sampleHyp.critiques = [] := by decide

open AdversarialReviewerImpl in
/-- C9 amended: a collaborator returning the falsy non-list value `None`
is silently treated as an empty finding set — the review returns
normally and appends nothing; an error surfaces only when a collaborator
call itself raises, in which case the exception propagates unchanged. -/
theorem review_coerces_falsy_value_and_propagates_raises :
    (∀ (c : ReviewClients) (h : Hypothesis),
      c.run_toxicology_screen h.target_candidate = .ok none →
      c.check_clinical_redundancy h.proposed_mechanism h.target_candidate = .ok none →
      c.check_patent_infringement h.target_candidate h.proposed_mechanism = .ok none →
      c.find_disconfirming_evidence h.target_candidate.symbol h.knowledge_gap "affect" =
        .ok none →
      review c h = .ok h) ∧
    (∀ (c : ReviewClients) (h : Hypothesis) (m : String),
      c.run_toxicology_screen h.target_candidate = .error m →
      review c h = .error m) := by
  constructor
  · intro c h h1 h2 h3 h4
    obtain ⟨i, ti, kg, pm, tc, cv, kc, ke, ec, cf, cr⟩ := h
    simp_all [review, pyItems, pyTruthyList, formatCritiques]
  · intro c h m h1
    simp [review, h1]

/-- C9 amended witness: the all-`None` clients produce a normal return
with no critiques; a raising toxicology screen propagates its message. -/
theorem review_coerces_falsy_value_and_propagates_raises_witness :
    AdversarialReviewerImpl.review noneClients sampleHyp = .ok sampleHyp ∧
    AdversarialReviewerImpl.review raisingClients sampleHyp = .error "Service Down" :=
  ⟨review_coerces_falsy_value_and_propagates_raises.1 noneClients sampleHyp rfl rfl rfl rfl,
   review_coerces_falsy_value_and_propagates_raises.2 raisingClients sampleHyp "Service Down" rfl⟩

/-! ## Claim theorems: orchestrator, concrete runs -/

open EpistemeEngineAsync in
/-- C1 (code evaluated at the failing input): with collaborators for
which every selection attempt yields a hypothesis carrying a FATAL
critique and `max_retries = 3`, the engine makes 3 selection attempts,
returns no hypothesis for the gap — but the trace it emits still has
status `"PENDING"`: the loop exhausts without ever assigning a
discarded/exhausted terminal status (`engine.py` lines 122-211 set no
status on the exhaustion path). -/
theorem exhausted_retries_emit_pending_trace :
    (processGap envExhaust 3 sampleGap).trace.status = "PENDING" ∧
    (processGap envExhaust 3 sampleGap).accepted = none ∧
    ((processGap envExhaust 3 sampleGap).emits.map fun e => e.2.status) = ["PENDING"] ∧
    (processGap envExhaust 3 sampleGap).selectorCalls = 3 := by decide

open EpistemeEngineAsync in
/-- C2 counterexample: the provenance sink raises whenever it is handed
the `ERROR: boom` trace.  Gap one is accepted, gap two's validator
raises `boom`, the gap boundary catches it and attempts to emit the
error trace — but that sink call raises too, and the exception
propagates out of `run`: the whole batch aborts and gap one's accepted
hypothesis is not returned. -/
theorem sink_failure_in_error_handler_aborts_batch :
    runGaps envSinkDown 3 [sampleGap, gapTwo] = .error "sink down" ∧
    (processGap envSinkDown 3 sampleGap).accepted.isSome = true := by decide

/-! ## Orchestrator step lemmas -/

open EpistemeEngineAsync in
/-- A loop iteration that ends in `retry` went through bridge, validate
and review successfully, excludes the reviewed hypothesis's target
symbol, and leaves the trace with the current exclusion list as history,
the status it entered with, and the selected hypothesis's id. -/
theorem loopStep_retry_spec {env : EngineEnv} {gap : KnowledgeGap} {a : ℕ}
    {ex : List String} {tr : HypothesisTrace} {s : String} {t : HypothesisTrace} :
    loopStep env gap a ex tr = .retry s t →
    ∃ br h0 h1 h2,
      env.bridge gap ex = .ok br ∧ br.hypothesis = some h0 ∧
      env.validate h0 = .ok h1 ∧ env.review h1 = .ok h2 ∧
      s = h2.target_candidate.symbol ∧
      t.excluded_targets_history = ex ∧
      t.status = tr.status ∧
      t.hypothesis_id = some h0.id := by
  intro h
  simp only [loopStep] at h
  cases hbr : env.bridge gap ex with
  | error m => simp only [hbr] at h; cases h
  | ok br =>
    simp only [hbr] at h
    cases hh0 : br.hypothesis with
    | none => simp only [hh0] at h; cases h
    | some h0 =>
      simp only [hh0] at h
      cases hv : env.validate h0 with
      | error m => simp only [hv] at h; cases h
      | ok h1 =>
        simp only [hv] at h
        by_cases hsc : h1.causal_validation_score < mkRat 1 2
        · rw [if_pos hsc] at h; cases h
        · rw [if_neg hsc] at h
          cases hr : env.review h1 with
          | error m => simp only [hr] at h; cases h
          | ok h2 =>
            simp only [hr] at h
            by_cases hf : (h2.critiques.filter fun c =>
                c.severity == CritiqueSeverity.FATAL).isEmpty = true
            · rw [if_pos hf] at h
              cases hd : env.design h2 with
              | error m => simp only [hd] at h; cases h
              | ok h3 =>
                simp only [hd] at h
                by_cases hpt : pyTruthyStr (some h0.id) = true
                · rw [if_pos hpt] at h
                  cases hl : env.logTrace h0.id _ with
                  | error m => rw [hl] at h; cases h
                  | ok u => rw [hl] at h; cases h
                · rw [if_neg hpt] at h; cases h
            · rw [if_neg hf] at h
              cases h
              exact ⟨br, h0, h1, h2, rfl, hh0, hv, hr, rfl, rfl, rfl, rfl⟩

open EpistemeEngineAsync in
/-- Every loop iteration first records the current exclusion list as the
trace's history (`engine.py` line 124), so however the iteration ends,
the trace it hands on carries exactly that list. -/
theorem loopStep_done_history {env : EngineEnv} {gap : KnowledgeGap} {a : ℕ}
    {ex : List String} {tr : HypothesisTrace} {o : LoopOutcome} {t : HypothesisTrace}
    {e : List (String × HypothesisTrace)} :
    loopStep env gap a ex tr = .done o t e → t.excluded_targets_history = ex := by
  intro h
  simp only [loopStep] at h
  repeat' split at h
  all_goals (cases h <;> rfl)

open EpistemeEngineAsync in
/-- With a never-failing sink and selector hypotheses carrying non-empty
ids, a `done` iteration: emits nothing when it stopped (its status being
one of the two in-loop discard strings) or raised, and emits exactly one
trace — marked `ACCEPTED` — when it accepted. -/
theorem loopStep_done_sink {env : EngineEnv} {gap : KnowledgeGap} {a : ℕ}
    {ex : List String} {tr : HypothesisTrace} {o : LoopOutcome} {t : HypothesisTrace}
    {e : List (String × HypothesisTrace)}
    (hsink : ∀ i tt, env.logTrace i tt = Except.ok ())
    (hids : ∀ br h0, env.bridge gap ex = .ok br → br.hypothesis = some h0 → h0.id ≠ "") :
    loopStep env gap a ex tr = .done o t e →
    (o = .stopped →
      e = [] ∧
      (t.status = "DISCARDED (No Bridge)" ∨ t.status = "DISCARDED (Low Causal Score)")) ∧
    (∀ m, o = .raised m → e = []) ∧
    (∀ h3, o = .accepted h3 → e.length = 1 ∧ t.status = "ACCEPTED") := by
  intro h
  simp only [loopStep] at h
  cases hbr : env.bridge gap ex with
  | error m =>
    simp only [hbr] at h
    cases h
    simp
  | ok br =>
    simp only [hbr] at h
    cases hh0 : br.hypothesis with
    | none =>
      simp only [hh0] at h
      cases h
      simp
    | some h0 =>
      simp only [hh0] at h
      cases hv : env.validate h0 with
      | error m =>
        simp only [hv] at h
        cases h
        simp
      | ok h1 =>
        simp only [hv] at h
        by_cases hsc : h1.causal_validation_score < mkRat 1 2
        · rw [if_pos hsc] at h
          cases h
          simp
        · rw [if_neg hsc] at h
          cases hr : env.review h1 with
          | error m =>
            simp only [hr] at h
            cases h
            simp
          | ok h2 =>
            simp only [hr] at h
            by_cases hf : (h2.critiques.filter fun c =>
                c.severity == CritiqueSeverity.FATAL).isEmpty = true
            · rw [if_pos hf] at h
              cases hd : env.design h2 with
              | error m =>
                simp only [hd] at h
                cases h
                simp
              | ok h3 =>
                simp only [hd] at h
                by_cases hpt : pyTruthyStr (some h0.id) = true
                · rw [if_pos hpt] at h
                  rw [hsink h0.id _] at h
                  cases h
                  simp
                · exact absurd (by simp [pyTruthyStr, hids br h0 hbr hh0]) hpt
            · rw [if_neg hf] at h
              cases h

/-! ## Refinement-loop invariants -/

open EpistemeEngineAsync in
/-- The loop performs at most `fuel` selector calls. -/
theorem refinementLoop_selectorCalls_le (env : EngineEnv) (gap : KnowledgeGap) :
    ∀ fuel a ex tr, (refinementLoop env gap fuel a ex tr).selectorCalls ≤ fuel := by
  intro fuel
  induction fuel with
  | zero => intro a ex tr; simp [refinementLoop]
  | succ n ih =>
    intro a ex tr
    simp only [refinementLoop]
    cases hstep : loopStep env gap a ex tr with
    | done o t e => simp
    | retry s t =>
      simp only
      have := ih (a + 1) (ex ++ [s]) t
      omega

open EpistemeEngineAsync in
/-- Invariant bounding the exclusion history recorded on the trace: if
the entry state satisfies `ex.length ≤ a`, `a + fuel ≤ N` and the entry
trace's history is within bound, the exit trace's history has length at
most `N - 1`. -/
theorem refinementLoop_history_le (env : EngineEnv) (gap : KnowledgeGap) (N : ℕ) :
    ∀ fuel a ex tr, ex.length ≤ a → a + fuel ≤ N →
      tr.excluded_targets_history.length ≤ N - 1 →
      (refinementLoop env gap fuel a ex tr).trace.excluded_targets_history.length ≤ N - 1 := by
  intro fuel
  induction fuel with
  | zero =>
    intro a ex tr _ _ htr
    simpa [refinementLoop] using htr
  | succ n ih =>
    intro a ex tr hex hfa htr
    simp only [refinementLoop]
    cases hstep : loopStep env gap a ex tr with
    | done o t e =>
      simp only
      rw [loopStep_done_history hstep]
      omega
    | retry s t =>
      simp only
      obtain ⟨br, h0, h1, h2, _, _, _, _, _, hthist, _, _⟩ := loopStep_retry_spec hstep
      apply ih (a + 1) (ex ++ [s]) t
      · simp only [List.length_append, List.length_singleton]; omega
      · omega
      · rw [hthist]; omega

open EpistemeEngineAsync in
/-- Invariant on the exclusion lists handed to successive selector
calls: assuming the selector never proposes a target it was told to
exclude, and the validator and reviewer do not change the target symbol,
the recorded argument lists grow monotonically and stay duplicate-free. -/
theorem refinementLoop_args (env : EngineEnv) (gap : KnowledgeGap)
    (Hsel : ∀ ex br h0, env.bridge gap ex = .ok br → br.hypothesis = some h0 →
      h0.target_candidate.symbol ∉ ex)
    (Hval : ∀ h h', env.validate h = .ok h' →
      h'.target_candidate.symbol = h.target_candidate.symbol)
    (Hrev : ∀ h h', env.review h = .ok h' →
      h'.target_candidate.symbol = h.target_candidate.symbol) :
    ∀ fuel a ex tr, ex.Nodup →
      (refinementLoop env gap fuel a ex tr).selectorArgs.Pairwise (· ⊆ ·) ∧
      (∀ l ∈ (refinementLoop env gap fuel a ex tr).selectorArgs, l.Nodup) ∧
      (∀ l ∈ (refinementLoop env gap fuel a ex tr).selectorArgs, ex ⊆ l) := by
  intro fuel
  induction fuel with
  | zero => intro a ex tr _; simp [refinementLoop]
  | succ n ih =>
    intro a ex tr hnd
    simp only [refinementLoop]
    cases hstep : loopStep env gap a ex tr with
    | done o t e =>
      simp only
      refine ⟨List.pairwise_singleton _ _, ?_, ?_⟩
      · intro l hl
        rw [List.mem_singleton] at hl
        rw [hl]; exact hnd
      · intro l hl
        rw [List.mem_singleton] at hl
        rw [hl]
        exact List.Subset.refl ex
    | retry s t =>
      simp only
      obtain ⟨br, h0, h1, h2, hbr, hh0, hv, hr, hs, _, _, _⟩ := loopStep_retry_spec hstep
      have hnotmem : s ∉ ex := by
        rw [hs, Hrev h1 h2 hr, Hval h0 h1 hv]
        exact Hsel ex br h0 hbr hh0
      have hnd' : (ex ++ [s]).Nodup := by
        rw [List.nodup_append]
        exact ⟨hnd, List.nodup_singleton s, by simpa [List.disjoint_singleton] using hnotmem⟩
      obtain ⟨hpw, hnds, hsub⟩ := ih (a + 1) (ex ++ [s]) t hnd'
      refine ⟨?_, ?_, ?_⟩
      · rw [List.pairwise_cons]
        exact ⟨fun l hl => (List.subset_append_left ex [s]).trans (hsub l hl), hpw⟩
      · intro l hl
        rcases List.mem_cons.mp hl with hl | hl
        · rw [hl]; exact hnd
        · exact hnds l hl
      · intro l hl
        rcases List.mem_cons.mp hl with hl | hl
        · rw [hl]; exact List.Subset.refl ex
        · exact (List.subset_append_left ex [s]).trans (hsub l hl)

open EpistemeEngineAsync in
/-- Emission discipline of the loop under a reliable sink: a stopped
loop emitted nothing and left a non-`ACCEPTED` status, a raised loop
emitted nothing, and an accepting loop emitted exactly once. -/
theorem refinementLoop_emits (env : EngineEnv) (gap : KnowledgeGap)
    (hsink : ∀ i tt, env.logTrace i tt = Except.ok ())
    (hids : ∀ ex br h0, env.bridge gap ex = .ok br → br.hypothesis = some h0 → h0.id ≠ "") :
    ∀ fuel a ex tr, tr.status ≠ "ACCEPTED" →
      ((refinementLoop env gap fuel a ex tr).outcome = .stopped →
        (refinementLoop env gap fuel a ex tr).emits = [] ∧
        (refinementLoop env gap fuel a ex tr).trace.status ≠ "ACCEPTED") ∧
      (∀ m, (refinementLoop env gap fuel a ex tr).outcome = .raised m →
        (refinementLoop env gap fuel a ex tr).emits = []) ∧
      (∀ h3, (refinementLoop env gap fuel a ex tr).outcome = .accepted h3 →
        (refinementLoop env gap fuel a ex tr).emits.length = 1) := by
  intro fuel
  induction fuel with
  | zero =>
    intro a ex tr htr
    refine ⟨fun _ => ⟨rfl, ?_⟩, fun m hc => ?_, fun h3 hc => ?_⟩
    · simpa [refinementLoop] using htr
    · simp [refinementLoop] at hc
    · simp [refinementLoop] at hc
  | succ n ih =>
    intro a ex tr htr
    simp only [refinementLoop]
    cases hstep : loopStep env gap a ex tr with
    | done o t e =>
      simp only
      obtain ⟨hstop, hraise, hacc⟩ := loopStep_done_sink hsink (hids ex) hstep
      refine ⟨fun hc => ?_, fun m hc => hraise m hc, fun h3 hc => (hacc h3 hc).1⟩
      obtain ⟨he, hst⟩ := hstop hc
      refine ⟨he, ?_⟩
      rcases hst with hst | hst <;> rw [hst] <;> decide
    | retry s t =>
      simp only
      obtain ⟨br, h0, h1, h2, _, _, _, _, _, _, hstat, _⟩ := loopStep_retry_spec hstep
      exact ih (a + 1) (ex ++ [s]) t (by rw [hstat]; exact htr)

/-! ## Per-gap processing lemmas -/

open EpistemeEngineAsync in
/-- `processGap` passes the loop's selector-call count, selector
arguments and exclusion history through unchanged (the post-loop logging
and the error handler only adjust the status and the emits). -/
theorem processGap_parts (env : EngineEnv) (N : ℕ) (gap : KnowledgeGap) :
    (processGap env N gap).selectorCalls =
      (refinementLoop env gap N 0 [] (initTrace gap)).selectorCalls ∧
    (processGap env N gap).selectorArgs =
      (refinementLoop env gap N 0 [] (initTrace gap)).selectorArgs ∧
    (processGap env N gap).trace.excluded_targets_history =
      (refinementLoop env gap N 0 [] (initTrace gap)).trace.excluded_targets_history := by
  simp only [processGap, gapErrorHandler]
  cases ho : (refinementLoop env gap N 0 [] (initTrace gap)).outcome with
  | accepted h => simp
  | stopped =>
    simp only
    split
    · simp
    · cases hl : env.logTrace (pyOrStr (refinementLoop env gap N 0 [] (initTrace gap)).trace.hypothesis_id
          ("failed-gap-" ++ gap.id)) (refinementLoop env gap N 0 [] (initTrace gap)).trace with
      | ok u => simp [hl]
      | error m =>
        simp only [hl]
        cases hl2 : env.logTrace _ _ with
        | ok u => simp [hl2]
        | error m2 => simp [hl2]
  | raised m =>
    simp only
    cases hl : env.logTrace _ _ with
    | ok u => simp [hl]
    | error m2 => simp [hl]

open EpistemeEngineAsync in
/-- With a sink that never raises, no exception escapes the gap
boundary. -/
theorem processGap_aborted_none (env : EngineEnv) (N : ℕ) (gap : KnowledgeGap)
    (hsink : ∀ i tt, env.logTrace i tt = Except.ok ()) :
    (processGap env N gap).aborted = none := by
  simp only [processGap, gapErrorHandler, hsink]
  cases ho : (refinementLoop env gap N 0 [] (initTrace gap)).outcome with
  | accepted h => simp
  | stopped => simp only; split <;> simp
  | raised m => simp

/-! ## Claim theorems: orchestrator invariants -/

open EpistemeEngineAsync in
/-- C3: for every configured `max_retries = N` and every gap, the
orchestrator calls the candidate selector at most `N` times, and the
excluded-targets history recorded in the gap's trace has length at most
`N - 1` (truncated subtraction: for `N = 0` the history is empty). -/
theorem selector_calls_and_history_bounded (env : EngineEnv) (N : ℕ) (gap : KnowledgeGap) :
    (processGap env N gap).selectorCalls ≤ N ∧
    (processGap env N gap).trace.excluded_targets_history.length ≤ N - 1 := by
  obtain ⟨hc, _, hh⟩ := processGap_parts env N gap
  constructor
  · rw [hc]; exact refinementLoop_selectorCalls_le env gap N 0 [] _
  · rw [hh]
    exact refinementLoop_history_le env gap N N 0 [] _ (by simp) (by omega)
      (by simp [initTrace])

open EpistemeEngineAsync in
/-- C4: with a sink that never raises and a selector whose hypotheses
carry non-empty ids, every gap's trace is emitted to the provenance sink
exactly once — never zero times, never more than once — whatever the
outcome, and no exception escapes the gap. -/
theorem trace_emitted_exactly_once (env : EngineEnv) (N : ℕ) (gap : KnowledgeGap)
    (hsink : ∀ i tt, env.logTrace i tt = Except.ok ())
    (hids : ∀ ex br h0, env.bridge gap ex = .ok br → br.hypothesis = some h0 → h0.id ≠ "") :
    (processGap env N gap).emits.length = 1 ∧ (processGap env N gap).aborted = none := by
  refine ⟨?_, processGap_aborted_none env N gap hsink⟩
  have hem := refinementLoop_emits env gap hsink hids N 0 [] (initTrace gap)
    (by simp [initTrace])
  simp only [processGap, gapErrorHandler, hsink]
  cases ho : (refinementLoop env gap N 0 [] (initTrace gap)).outcome with
  | accepted h3 =>
    simp only
    exact hem.2.2 h3 ho
  | stopped =>
    obtain ⟨he, hst⟩ := hem.1 ho
    simp only
    split
    · next hacc =>
      exact absurd (by simpa using hacc) hst
    · simp [he]
  | raised m =>
    have he := hem.2.1 m ho
    simp [he]

/-- C4 witness: the no-bridge collaborators with a working sink emit the
gap's trace exactly once. -/
theorem trace_emitted_exactly_once_witness :
    (EpistemeEngineAsync.processGap envNoBridge 3 sampleGap).emits.length = 1 ∧
    (EpistemeEngineAsync.processGap envNoBridge 3 sampleGap).aborted = none :=
  trace_emitted_exactly_once envNoBridge 3 sampleGap (fun _ _ => rfl)
    (fun ex br h0 hbr hh0 => by
      cases hbr
      cases hh0)

open EpistemeEngineAsync in
/-- C7: within one gap's processing, the exclusion set passed to
successive selection attempts grows monotonically (each later set
contains every entry of each earlier one) and never contains duplicate
entries — assuming the selector never returns a hypothesis whose target
symbol it was told to exclude (which `BridgeBuilderImpl` guarantees when
the ontology service preserves symbols) and the validator and reviewer
leave the target symbol unchanged (which their implementations do). -/
theorem exclusion_sets_monotone_and_duplicate_free (env : EngineEnv) (N : ℕ)
    (gap : KnowledgeGap)
    (Hsel : ∀ ex br h0, env.bridge gap ex = .ok br → br.hypothesis = some h0 →
      h0.target_candidate.symbol ∉ ex)
    (Hval : ∀ h h', env.validate h = .ok h' →
      h'.target_candidate.symbol = h.target_candidate.symbol)
    (Hrev : ∀ h h', env.review h = .ok h' →
      h'.target_candidate.symbol = h.target_candidate.symbol) :
    (processGap env N gap).selectorArgs.Pairwise (· ⊆ ·) ∧
    ∀ l ∈ (processGap env N gap).selectorArgs, l.Nodup := by
  obtain ⟨_, ha, _⟩ := processGap_parts env N gap
  have h := refinementLoop_args env gap Hsel Hval Hrev N 0 [] (initTrace gap) List.nodup_nil
  rw [ha]
  exact ⟨h.1, h.2.1⟩

/-- C7 witness: with the no-bridge collaborators (which trivially
satisfy the three collaborator assumptions) the single recorded
selection argument is the empty exclusion set. -/
theorem exclusion_sets_monotone_and_duplicate_free_witness :
    ((EpistemeEngineAsync.processGap envNoBridge 3 sampleGap).selectorArgs.Pairwise (· ⊆ ·) ∧
      ∀ l ∈ (EpistemeEngineAsync.processGap envNoBridge 3 sampleGap).selectorArgs, l.Nodup) ∧
    (EpistemeEngineAsync.processGap envNoBridge 3 sampleGap).selectorArgs = [[]] :=
  ⟨exclusion_sets_monotone_and_duplicate_free envNoBridge 3 sampleGap
      (fun ex br h0 hbr hh0 => by cases hbr; cases hh0)
      (fun h h' hh => by cases hh; rfl)
      (fun h h' hh => by cases hh; rfl),
   by decide⟩

open EpistemeEngineAsync in
/-- C2 amended: provided the provenance sink itself never raises, any
exception from a collaborator during a gap's processing is caught at the
gap boundary: the gap's trace is recorded with status `ERROR: <message>`
and emitted as the gap's final sink call, the gap contributes no
hypothesis, nothing escapes the boundary, and the whole batch completes
with exactly the per-gap results concatenated in order.  (When the sink
raises inside the error handler, the exception propagates and aborts the
batch — see the counterexample.) -/
theorem gap_error_boundary_with_reliable_sink (env : EngineEnv) (N : ℕ)
    (hsink : ∀ i tt, env.logTrace i tt = Except.ok ()) :
    (∀ gaps : List KnowledgeGap,
      runGaps env N gaps =
        .ok ⟨(gaps.map fun g => (processGap env N g).accepted.toList).flatten,
             (gaps.map fun g => (processGap env N g).emits).flatten⟩) ∧
    (∀ gap m,
      (refinementLoop env gap N 0 [] (initTrace gap)).outcome = .raised m →
      (processGap env N gap).trace.status = "ERROR: " ++ m ∧
      (processGap env N gap).accepted = none ∧
      (processGap env N gap).aborted = none ∧
      ∃ pre logId,
        (processGap env N gap).emits = pre ++ [(logId, (processGap env N gap).trace)]) := by
  constructor
  · intro gaps
    induction gaps with
    | nil => simp [runGaps]
    | cons g rest ih =>
      simp only [runGaps, processGap_aborted_none env N g hsink, ih]
      simp
  · intro gap m ho
    simp only [processGap, gapErrorHandler, hsink, ho]
    refine ⟨trivial, trivial, trivial, ?_⟩
    exact ⟨_, _, rfl⟩

/-- C2 amended witness: with a failing graph service and a working
sink, the gap ends in an `ERROR` trace, contributes nothing, and the
run completes. -/
theorem gap_error_boundary_with_reliable_sink_witness :
    (EpistemeEngineAsync.processGap envBridgeFail 3 sampleGap).trace.status =
      "ERROR: " ++ "graph down" ∧
    (EpistemeEngineAsync.processGap envBridgeFail 3 sampleGap).accepted = none ∧
    (EpistemeEngineAsync.processGap envBridgeFail 3 sampleGap).aborted = none := by
  have h := (gap_error_boundary_with_reliable_sink envBridgeFail 3 (fun _ _ => rfl)).2
    sampleGap "graph down" (by decide)
  exact ⟨h.1, h.2.1, h.2.2.1⟩

open EpistemeEngineAsync in
/-- C6: if the first selection produces a hypothesis whose causal
validation score is strictly below 0.5, the gap's trace status is set to
`DISCARDED (Low Causal Score)`, the loop stops without any further
selection attempt (one selector call, whatever the retry bound), the gap
returns zero hypotheses, and its trace is emitted once. -/
theorem low_causal_score_discards_without_retry (env : EngineEnv) (N : ℕ)
    (gap : KnowledgeGap) (br : BridgeResult) (h0 h1 : Hypothesis)
    (hsink : ∀ i tt, env.logTrace i tt = Except.ok ())
    (hN : 1 ≤ N)
    (hbr : env.bridge gap [] = .ok br)
    (hh0 : br.hypothesis = some h0)
    (hv : env.validate h0 = .ok h1)
    (hsc : h1.causal_validation_score < mkRat 1 2) :
    ((processGap env N gap).trace.status = "DISCARDED (Low Causal Score)" ∧
      (processGap env N gap).accepted = none ∧
      (processGap env N gap).selectorCalls = 1 ∧
      (processGap env N gap).emits.length = 1) ∧
    (∀ (a : ℕ) (ex : List String) (tr : HypothesisTrace) (br' : BridgeResult)
        (h0' h1' : Hypothesis),
      env.bridge gap ex = .ok br' → br'.hypothesis = some h0' →
      env.validate h0' = .ok h1' → h1'.causal_validation_score < mkRat 1 2 →
      ∃ t, loopStep env gap a ex tr = .done .stopped t [] ∧
        t.status = "DISCARDED (Low Causal Score)") := by
  constructor
  case right =>
    intro a ex tr br' h0' h1' hbr' hh0' hv' hsc'
    have hstep : loopStep env gap a ex tr = .done .stopped
        { tr with
          excluded_targets_history := ex
          refinement_retries := a + 1 - 1
          bridges_found_count := br'.bridges_found_count
          considered_candidates := br'.considered_candidates
          hypothesis_id := some h0'.id
          bridge_id := some h0'.target_candidate.ensembl_id
          causal_validation_score := some h1'.causal_validation_score
          key_counterfactual := some h1'.key_counterfactual
          status := "DISCARDED (Low Causal Score)" } [] := by
      simp [loopStep, hbr', hh0', hv', if_pos hsc']
    exact ⟨_, hstep, rfl⟩
  case left =>
  obtain ⟨k, rfl⟩ : ∃ k, N = k + 1 := ⟨N - 1, by omega⟩
  have hstep : loopStep env gap 0 [] (initTrace gap) =
      .done .stopped
        { initTrace gap with
          bridges_found_count := br.bridges_found_count
          considered_candidates := br.considered_candidates
          hypothesis_id := some h0.id
          bridge_id := some h0.target_candidate.ensembl_id
          causal_validation_score := some h1.causal_validation_score
          key_counterfactual := some h1.key_counterfactual
          excluded_targets_history := []
          refinement_retries := 0
          status := "DISCARDED (Low Causal Score)" } [] := by
    simp [loopStep, hbr, hh0, hv, if_pos hsc, initTrace]
  simp only [processGap, refinementLoop, hstep, hsink]
  simp [initTrace]

/-- C6 witness: the collaborators whose simulation returns 0.2 make the
gap end `DISCARDED (Low Causal Score)` after exactly one selection
attempt even though the retry bound is 3, with zero hypotheses. -/
theorem low_causal_score_discards_without_retry_witness :
    (EpistemeEngineAsync.processGap envLowScore 3 sampleGap).trace.status =
      "DISCARDED (Low Causal Score)" ∧
    (EpistemeEngineAsync.processGap envLowScore 3 sampleGap).accepted = none ∧
    (EpistemeEngineAsync.processGap envLowScore 3 sampleGap).selectorCalls = 1 ∧
    (EpistemeEngineAsync.processGap envLowScore 3 sampleGap).emits.length = 1 :=
  (low_causal_score_discards_without_retry envLowScore 3 sampleGap
    ⟨some (mkSampleHyp "hyp-low" sampleTarget), 1, ["GENE1"]⟩
    (mkSampleHyp "hyp-low" sampleTarget)
    { mkSampleHyp "hyp-low" sampleTarget with causal_validation_score := mkRat 1 5 }
    (fun _ _ => rfl) (by decide) rfl rfl rfl (by decide)).1

/-! ## Selection-fold correspondence -/

open BridgeBuilderImpl in
/-- The source's best-candidate fold over the raw candidate list agrees
with the spec's first-strict-max fold over the passing list, for any
threshold at least `-1` (the fold's initial best score; scores in the
program are in `[0, 1]`). -/
theorem foldBest_eq_specFirstMax (c : BridgeClients) (th : ℚ) (s t : String)
    (ex : List String) (hth : (-1 : ℚ) ≤ th) :
    ∀ (bridges : List GeneticTarget) (sp : Option (GeneticTarget × ℚ)),
      bridges.foldl (bestStep c th s t ex) (accOf sp) =
      accOf (List.foldl specStep sp (passingList c th s t ex bridges)) := by
  intro bridges
  induction bridges with
  | nil => intro sp; simp [passingList]
  | cons b bs ih =>
    intro sp
    cases hpc : processCandidate c th s t ex b with
    | passed vt sc =>
      have hsc : th < sc := (processCandidate_passed_spec hpc).2.1
      have hpl : passingList c th s t ex (b :: bs) =
          (vt, sc) :: passingList c th s t ex bs := by
        simp [passingList, List.filterMap_cons, hpc]
      have hstep : bestStep c th s t ex (accOf sp) b = accOf (specStep sp (vt, sc)) := by
        cases sp with
        | none =>
          simp only [accOf, specStep, bestStep, hpc]
          rw [if_pos (by simp; linarith)]
        | some q =>
          simp only [accOf, specStep, bestStep, hpc]
          by_cases hcmp : sc > q.2
          · rw [if_pos (by simpa using hcmp), if_pos hcmp]
          · rw [if_neg (by simpa using hcmp), if_neg hcmp]
      rw [hpl, List.foldl_cons, List.foldl_cons, hstep, ih (specStep sp (vt, sc))]
    | skippedExcluded =>
      have hpl : passingList c th s t ex (b :: bs) = passingList c th s t ex bs := by
        simp [passingList, List.filterMap_cons, hpc]
      have hstep : bestStep c th s t ex (accOf sp) b = accOf sp := by
        simp [bestStep, hpc]
      rw [hpl, List.foldl_cons, hstep, ih sp]
    | rejectedDruggability sc =>
      have hpl : passingList c th s t ex (b :: bs) = passingList c th s t ex bs := by
        simp [passingList, List.filterMap_cons, hpc]
      have hstep : bestStep c th s t ex (accOf sp) b = accOf sp := by
        simp [bestStep, hpc]
      rw [hpl, List.foldl_cons, hstep, ih sp]
    | rejectedValidation sc =>
      have hpl : passingList c th s t ex (b :: bs) = passingList c th s t ex bs := by
        simp [passingList, List.filterMap_cons, hpc]
      have hstep : bestStep c th s t ex (accOf sp) b = accOf sp := by
        simp [bestStep, hpc]
      rw [hpl, List.foldl_cons, hstep, ih sp]
    | rejectedCitation vt sc =>
      have hpl : passingList c th s t ex (b :: bs) = passingList c th s t ex bs := by
        simp [passingList, List.filterMap_cons, hpc]
      have hstep : bestStep c th s t ex (accOf sp) b = accOf sp := by
        simp [bestStep, hpc]
      rw [hpl, List.foldl_cons, hstep, ih sp]

open BridgeBuilderImpl in
/-- Folding the spec's strict-max step from an incumbent `a` yields the
incumbent itself (when nothing beats it) or the first element of the
list that strictly beats the incumbent and everything recorded before
it, and nothing in the list beats the result. -/
theorem foldl_specStep_some_spec :
    ∀ (xs : List (GeneticTarget × ℚ)) (a : GeneticTarget × ℚ),
      ∃ r, List.foldl specStep (some a) xs = some r ∧
        ((r = a ∧ ∀ q ∈ xs, q.2 ≤ a.2) ∨
         (∃ i, i < xs.length ∧ xs[i]? = some r ∧ a.2 < r.2 ∧
           (∀ j, j < i → ∀ q, xs[j]? = some q → q.2 < r.2) ∧
           (∀ q ∈ xs, q.2 ≤ r.2))) := by
  intro xs
  induction xs with
  | nil => intro a; exact ⟨a, rfl, Or.inl ⟨rfl, by simp⟩⟩
  | cons x xs ih =>
    intro a
    rw [List.foldl_cons]
    by_cases hcmp : x.2 > a.2
    · rw [show specStep (some a) x = some x by simp [specStep, hcmp]]
      obtain ⟨r, hr, hcase⟩ := ih x
      refine ⟨r, hr, Or.inr ?_⟩
      rcases hcase with ⟨req, hbound⟩ | ⟨i, hi, hidx, hlt, hjs, hbound⟩
      · refine ⟨0, by simp, ?_, ?_, ?_, ?_⟩
        · rw [List.getElem?_cons_zero, req]
        · rw [req]; exact hcmp
        · intro j hj; omega
        · intro q hq
          rcases List.mem_cons.mp hq with hq | hq
          · rw [hq, req]
          · rw [req]; exact hbound q hq
      · refine ⟨i + 1, by simpa using hi, ?_, ?_, ?_, ?_⟩
        · rw [List.getElem?_cons_succ]; exact hidx
        · exact lt_trans hcmp hlt
        · intro j hj q hq
          cases j with
          | zero =>
            rw [List.getElem?_cons_zero] at hq
            cases hq
            exact hlt
          | succ j' =>
            rw [List.getElem?_cons_succ] at hq
            exact hjs j' (by omega) q hq
        · intro q hq
          rcases List.mem_cons.mp hq with hq | hq
          · rw [hq]; exact le_of_lt hlt
          · exact hbound q hq
    · push_neg at hcmp
      rw [show specStep (some a) x = some a by simp [specStep]; intro h; linarith]
      obtain ⟨r, hr, hcase⟩ := ih a
      refine ⟨r, hr, ?_⟩
      rcases hcase with ⟨req, hbound⟩ | ⟨i, hi, hidx, hlt, hjs, hbound⟩
      · refine Or.inl ⟨req, ?_⟩
        intro q hq
        rcases List.mem_cons.mp hq with hq | hq
        · rw [hq]; exact hcmp
        · exact hbound q hq
      · refine Or.inr ⟨i + 1, by simpa using hi, ?_, hlt, ?_, ?_⟩
        · rw [List.getElem?_cons_succ]; exact hidx
        · intro j hj q hq
          cases j with
          | zero =>
            rw [List.getElem?_cons_zero] at hq
            cases hq
            exact lt_of_le_of_lt hcmp hlt
          | succ j' =>
            rw [List.getElem?_cons_succ] at hq
            exact hjs j' (by omega) q hq
        · intro q hq
          rcases List.mem_cons.mp hq with hq | hq
          · rw [hq]; exact le_of_lt (lt_of_le_of_lt hcmp hlt)
          · exact hbound q hq

open BridgeBuilderImpl in
/-- Characterisation of `specFirstMax`: its result is a member of the
list whose score no member exceeds, and it sits at a position strictly
before which every member scores strictly less — i.e. it is the
first-seen strict maximum. -/
theorem specFirstMax_spec :
    ∀ (l : List (GeneticTarget × ℚ)) (p : GeneticTarget × ℚ),
      specFirstMax l = some p →
      p ∈ l ∧ (∀ q ∈ l, q.2 ≤ p.2) ∧
      ∃ i, i < l.length ∧ l[i]? = some p ∧
        ∀ j, j < i → ∀ q, l[j]? = some q → q.2 < p.2 := by
  intro l p hp
  cases l with
  | nil => simp [specFirstMax] at hp
  | cons x xs =>
    have hfold : List.foldl specStep (some x) xs = some p := by
      rw [specFirstMax, List.foldl_cons] at hp
      exact hp
    obtain ⟨r, hr, hcase⟩ := foldl_specStep_some_spec xs x
    rw [hr] at hfold
    have hrp : r = p := by injection hfold
    subst hrp
    rcases hcase with ⟨req, hbound⟩ | ⟨i, hi, hidx, hlt, hjs, hbound⟩
    · subst req
      refine ⟨List.mem_cons_self r xs, ?_, 0, by simp, List.getElem?_cons_zero, ?_⟩
      · intro q hq
        rcases List.mem_cons.mp hq with hq | hq
        · rw [hq]
        · exact hbound q hq
      · intro j hj; omega
    · have hmem : r ∈ xs := by
        obtain ⟨hlen, he⟩ := List.getElem?_eq_some_iff.mp hidx
        exact he ▸ List.getElem_mem hlen
      refine ⟨List.mem_cons_of_mem x hmem, ?_, i + 1, by simpa using hi, ?_, ?_⟩
      · intro q hq
        rcases List.mem_cons.mp hq with hq | hq
        · rw [hq]; exact le_of_lt hlt
        · exact hbound q hq
      · rw [List.getElem?_cons_succ]; exact hidx
      · intro j hj q hq
        cases j with
        | zero =>
          rw [List.getElem?_cons_zero] at hq
          cases hq
          exact hlt
        | succ j' =>
          rw [List.getElem?_cons_succ] at hq
          exact hjs j' (by omega) q hq

open BridgeBuilderImpl in
/-- C5: for a selection call on a gap with at least two source nodes,
a candidate is retained only when its freshly measured druggability
strictly exceeds the threshold; the returned hypothesis's target (with
its score) is exactly the spec's first-strict-max over the passing
candidates — the strictly highest measured druggability wins and the
earlier-seen candidate is kept on equal scores. -/
theorem selection_picks_first_strict_max
    (c : BridgeClients) (th : ℚ) (gap : KnowledgeGap) (ex : List String) (nid : String)
    (s t : String) (rest : List String)
    (hth : (-1 : ℚ) ≤ th)
    (hsrc : gap.source_nodes = some (s :: t :: rest)) :
    (∀ p ∈ passingList c th s t ex (c.find_latent_bridges s t), th < p.2) ∧
    ((generate_hypothesis c th gap ex nid).1.hypothesis.map
        (fun h => (h.target_candidate, h.target_candidate.druggability_score)) =
      specFirstMax (passingList c th s t ex (c.find_latent_bridges s t))) ∧
    (∀ p, specFirstMax (passingList c th s t ex (c.find_latent_bridges s t)) = some p →
      p ∈ passingList c th s t ex (c.find_latent_bridges s t) ∧
      (∀ q ∈ passingList c th s t ex (c.find_latent_bridges s t), q.2 ≤ p.2) ∧
      ∃ i, i < (passingList c th s t ex (c.find_latent_bridges s t)).length ∧
        (passingList c th s t ex (c.find_latent_bridges s t))[i]? = some p ∧
        ∀ j, j < i →
          ∀ q, (passingList c th s t ex (c.find_latent_bridges s t))[j]? = some q →
            q.2 < p.2) := by
  refine ⟨fun p hp => (passingList_score p hp).1, ?_, fun p hp => specFirstMax_spec _ p hp⟩
  simp only [generate_hypothesis, hsrc]
  cases hemp : (c.find_latent_bridges s t).isEmpty with
  | true =>
    have hnil : c.find_latent_bridges s t = [] := List.isEmpty_iff.mp hemp
    simp [hemp, hnil, passingList, specFirstMax]
  | false =>
    simp only [hemp, Bool.false_eq_true, if_false]
    have hfb := foldBest_eq_specFirstMax c th s t ex hth (c.find_latent_bridges s t) none
    rw [show ((none : Option GeneticTarget), (-1 : ℚ)) = accOf none from rfl, hfb]
    cases hsm : specFirstMax (passingList c th s t ex (c.find_latent_bridges s t)) with
    | none => simp [accOf, specFirstMax] at hsm ⊢; rw [hsm]
    | some p =>
      have hmem := (specFirstMax_spec _ p hsm).1
      have hscore := (passingList_score p hmem).2
      simp only [specFirstMax] at hsm
      rw [hsm]
      simp [accOf, hscore]

/-- C5 witness: two otherwise-valid candidates measured at 0.6 and 0.9
(in that order); the selection agrees with the spec's first-strict-max
and the returned hypothesis carries the 0.9 candidate. -/
theorem selection_picks_first_strict_max_witness :
    ((-1 : ℚ) ≤ mkRat 1 2) ∧
    ((BridgeBuilderImpl.generate_hypothesis tieClients (mkRat 1 2) sampleGap []
        "hid").1.hypothesis.map
        (fun h => (h.target_candidate, h.target_candidate.druggability_score)) =
      BridgeBuilderImpl.specFirstMax
        (BridgeBuilderImpl.passingList tieClients (mkRat 1 2) "A" "B" []
          (tieClients.find_latent_bridges "A" "B"))) ∧
    ((BridgeBuilderImpl.generate_hypothesis tieClients (mkRat 1 2) sampleGap []
        "hid").1.hypothesis.map (fun h => h.target_candidate.druggability_score) =
      some (mkRat 9 10)) :=
  ⟨by decide,
   (selection_picks_first_strict_max tieClients (mkRat 1 2) sampleGap [] "hid" "A" "B" []
      (by decide) rfl).2.1,
   by decide⟩

open BridgeBuilderImpl in
/-- Supporting fact for C7's selector assumption: when the ontology
service returns targets under the symbol it was asked about (as the
repository's `LocalCodexClient` does), a hypothesis produced by
`generate_hypothesis` never carries a symbol from the exclusion list,
because excluded candidates are skipped before any check
(`bridge_builder.py` lines 116-119). -/
theorem generate_hypothesis_respects_exclusions
    (c : BridgeClients) (th : ℚ) (gap : KnowledgeGap) (ex : List String) (nid : String)
    (h : Hypothesis)
    (hcodex : ∀ sym vt, c.validate_target sym = some vt → vt.symbol = sym) :
    (generate_hypothesis c th gap ex nid).1.hypothesis = some h →
    h.target_candidate.symbol ∉ ex := by
  have key : ∀ (bridges : List GeneticTarget) (acc : Option GeneticTarget × ℚ),
      (∀ vt0, acc.1 = some vt0 → vt0.symbol ∉ ex) →
      ∀ vt, (bridges.foldl (bestStep c th (gap.source_nodes.getD []).headI
          ((gap.source_nodes.getD []).tail.headI) ex) acc).1 = some vt → vt.symbol ∉ ex := by
    intro bridges
    induction bridges with
    | nil => intro acc hacc vt hvt; exact hacc vt hvt
    | cons b bs ih =>
      intro acc hacc vt hvt
      rw [List.foldl_cons] at hvt
      refine ih _ ?_ vt hvt
      intro vt0 hvt0
      cases hpc : processCandidate c th (gap.source_nodes.getD []).headI
          ((gap.source_nodes.getD []).tail.headI) ex b with
      | passed vt' sc =>
        simp only [bestStep, hpc] at hvt0
        by_cases hcmp : sc > acc.2
        · rw [if_pos hcmp] at hvt0
          cases hvt0
          obtain ⟨hmem, _, _, vt1, hval, hvt'⟩ := processCandidate_passed_spec hpc
          rw [hvt']
          have : vt1.symbol = b.symbol := hcodex _ _ hval
          simpa [this] using hmem
        · rw [if_neg hcmp] at hvt0
          exact hacc vt0 hvt0
      | skippedExcluded => simp only [bestStep, hpc] at hvt0; exact hacc vt0 hvt0
      | rejectedDruggability sc => simp only [bestStep, hpc] at hvt0; exact hacc vt0 hvt0
      | rejectedValidation sc => simp only [bestStep, hpc] at hvt0; exact hacc vt0 hvt0
      | rejectedCitation vt' sc => simp only [bestStep, hpc] at hvt0; exact hacc vt0 hvt0
  intro hh
  cases hsrc : gap.source_nodes with
  | none => simp [generate_hypothesis, hsrc] at hh
  | some nodes =>
    cases nodes with
    | nil => simp [generate_hypothesis, hsrc] at hh
    | cons s nodes1 =>
      cases nodes1 with
      | nil => simp [generate_hypothesis, hsrc] at hh
      | cons t rest =>
        simp only [generate_hypothesis, hsrc] at hh
        by_cases hemp : (c.find_latent_bridges s t).isEmpty = true
        · rw [if_pos hemp] at hh
          simp at hh
        · rw [if_neg hemp] at hh
          cases hbest : (List.foldl (bestStep c th s t ex)
              ((none : Option GeneticTarget), (-1 : ℚ)) (c.find_latent_bridges s t)).1 with
          | none =>
            rw [hbest] at hh
            simp at hh
          | some bc =>
            rw [hbest] at hh
            cases hh
            have := key (c.find_latent_bridges s t) (none, -1)
              (fun vt0 hvt0 => by cases hvt0) bc
            simp only [hsrc, Option.getD, List.headI, List.tail] at this
            exact this hbest
